import Mathlib

/-!
Verification development for the open-remote-aix remote session protocol.

The definitions below are a shallow embedding of the relay server
(`AIXRemoteServer` in the server source) and of the client session layer
(`AIXRemoteManager`).  Pure control flow is translated directly; the
single-threaded event loop of both processes is modelled by processing
explicit event lists in order; machine state (session registry, pending
request table, model filesystem) is threaded explicitly.
-/

namespace OpenRemoteAix

/-- Session keys.  In the source a session key is the request id
(`string | number`); all claims here are insensitive to the carrier, so we
embed it as `Nat`. -/
abbrev SessionKey := Nat

/-- The two process-backend variants (`type: 'pty' | 'spawn'` in
`TerminalSession`). -/
inductive BackendKind
  | pty
  | spawn
  deriving DecidableEq, Repr

/-- Streaming frames carrying a session key as their correlation id, as the
server emits them: `{type:'ready', pid, shell}`, `{type:'data', data}`,
`{type:'exit', exitCode, signal?}`, and the spawn path's error response
(`code -32603, message 'Terminal session error'`). -/
inductive Frame
  | ready (pid : Nat) (shell : String)
  | data (s : String)
  | exit (exitCode : Int) (signal : Option Nat)
  | error (msg : String)
  deriving DecidableEq, Repr

/-- Events a process backend delivers to the server's handlers: pty `onData`
/ spawn `stdout`/`stderr` `data` (already merged into one stream by the
spawn path), pty `onExit` / spawn `close`, and the spawn child's `error`
event. -/
inductive BEvent
  | data (s : String)
  | exited (exitCode : Int) (signal : Option Nat)
  | errored (msg : String)
  deriving DecidableEq, Repr

/-- The exit frame built by the spawn path's `close` handler:
`result: { type:'exit', exitCode: code || 0 }` — a `null` exit code becomes
`0`, and no `signal` field is ever attached. -/
def spawnCloseFrame (code : Option Int) : Frame :=
  Frame.exit (match code with | none => 0 | some c => c) none

/-- The exit frame built by the pty path's `onExit` handler:
`result: { type:'exit', exitCode, signal }`. -/
def ptyExitFrame (exitCode : Int) (signal : Option Nat) : Frame :=
  Frame.exit exitCode signal

/-- The exit frame a backend of the given kind emits for an `exited`
event: the pty `onExit` handler forwards the signal, the spawn `close`
handler reports `code || 0` with no signal field. -/
def exitFrameOf (kind : BackendKind) (c : Int) (sg : Option Nat) : Frame :=
  match kind with
  | BackendKind.pty => ptyExitFrame c sg
  | BackendKind.spawn => spawnCloseFrame (some c)

/-- One backend event, as handled by the closures `createTerminalSession`
(pty path) and `fallbackToSpawn` install: the frame sent over the websocket
(if any) and whether the handler deletes the session from `activeSessions`.
The pty path installs `onData` and `onExit` handlers only; the spawn path
additionally installs an `error` handler that sends an error response and
deletes the session. -/
def sessionEventFrame : BackendKind → BEvent → Option Frame
  | _, .data s => some (Frame.data s)
  | .pty, .exited c sg => some (ptyExitFrame c sg)
  | .spawn, .exited c _ => some (spawnCloseFrame (some c))
  | .pty, .errored _ => none
  | .spawn, .errored m => some (Frame.error m)

/-- Whether the handler for this event removes the registry entry
(`this.activeSessions.delete(sessionId)`): the exit handlers of both paths
do, and so does the spawn path's error handler. -/
def sessionEventDeletes : BackendKind → BEvent → Bool
  | _, .data _ => false
  | _, .exited _ _ => true
  | .pty, .errored _ => false
  | .spawn, .errored _ => true

/-- Registry of live session keys, threaded through backend-event handling.
`sessionRun` processes a backend's event list in emission order, returning
the registry afterwards and the frames sent for that session key. -/
def sessionRun (kind : BackendKind) (reg : List SessionKey) (k : SessionKey) :
    List BEvent → List SessionKey × List Frame
  | [] => (reg, [])
  | e :: rest =>
    let reg' := if sessionEventDeletes kind e then reg.filter (fun x => x ≠ k) else reg
    let (regF, frames) := sessionRun kind reg' k rest
    (regF, (sessionEventFrame kind e).toList ++ frames)

/-- All frames the server sends for one session: the synchronously sent
`ready` frame (emitted before the event loop can deliver any backend event),
followed by the frames produced by the backend's events. -/
def serverSessionFrames (kind : BackendKind) (pid : Nat) (shell : String)
    (reg : List SessionKey) (k : SessionKey) (evs : List BEvent) :
    List SessionKey × List Frame :=
  let (regF, frames) := sessionRun kind reg k evs
  (regF, Frame.ready pid shell :: frames)

/-- Client side, `handleResponse` with a `streamHandler` installed: the
frame is handed to the stream handler, and then the pending entry is
deleted when `response.result && (response.result.type === 'exit' ||
response.error)`.  The guard requires a `result` object, so among the
frames the server actually sends only the exit frame ends delivery: the
spawn path's error response carries `error` with no `result` and therefore
does not delete the streaming entry. -/
def isTerminalFrame : Frame → Bool
  | Frame.exit _ _ => true
  | _ => false

/-- Frames actually delivered to the consumer's stream handler: each frame
is delivered while the pending entry for the session key exists; the exit
frame is itself delivered and removes the entry, after which every later
frame for that id is discarded (`Received response for unknown request
ID`). -/
def clientDeliver : List Frame → List Frame
  | [] => []
  | f :: rest => f :: (if isTerminalFrame f then [] else clientDeliver rest)

/-- End-to-end trace one terminal session's consumer observes: the server's
frames for the session filtered through the client's pending-table
delivery. -/
def consumerTrace (kind : BackendKind) (pid : Nat) (shell : String)
    (reg : List SessionKey) (k : SessionKey) (evs : List BEvent) : List Frame :=
  clientDeliver (serverSessionFrames kind pid shell reg k evs).2

/-- A registered `TerminalSession` record: backend variant, owning
websocket connection (`websocket` field, embedded as a connection id),
and whether `process.kill` throws for this session's process. -/
structure SessionRec where
  kind : BackendKind
  owner : Nat
  killThrows : Bool
  deriving DecidableEq, Repr

/-- The `activeSessions` map, embedded as an association list with unique
keys. -/
abbrev SessTable := List (SessionKey × SessionRec)

/-- `activeSessions.get`. -/
def sget : SessTable → SessionKey → Option SessionRec
  | [], _ => none
  | (k1, v) :: rest, k => if k1 = k then some v else sget rest k

/-- `activeSessions.delete`. -/
def sdel : SessTable → SessionKey → SessTable
  | [], _ => []
  | (k1, v) :: rest, k => if k1 = k then sdel rest k else (k1, v) :: sdel rest k

/-- `handleTerminalKill`: look the session up; if absent, do nothing; if
present, `try { process.kill(signal); activeSessions.delete(key) } catch {
log }` — when the kill throws, the delete is skipped and the error is
swallowed. -/
def handleTerminalKill (tbl : SessTable) (k : SessionKey) (signal : String) :
    SessTable :=
  match sget tbl k with
  | none => tbl
  | some s => if s.killThrows then tbl else sdel tbl k

/-- The result object of the `terminal.kill` arm of `handleMessage`. -/
structure KillResult where
  success : Bool
  deriving DecidableEq, Repr

/-- The `terminal.kill` arm of `handleMessage`: run `handleTerminalKill`
(which never throws) and answer `{ result: { success: true } }`. -/
def handleTerminalKillMessage (tbl : SessTable) (k : SessionKey)
    (signal : String) : SessTable × KillResult :=
  (handleTerminalKill tbl k signal, { success := true })

/-- The keys `cleanupSessionsForConnection` collects in its first pass:
sessions whose `websocket` is the closing connection. -/
def ownedKeys (tbl : SessTable) (ws : Nat) : List SessionKey :=
  (tbl.filter (fun kv => kv.2.owner == ws)).map (fun kv => kv.1)

/-- The second pass of `cleanupSessionsForConnection`: for each collected
key, look the session up; if still present, kill it (the kill is recorded
even when `process.kill` throws — the catch only logs) and delete the
entry.  Returns the table afterwards and the keys actually killed. -/
def cleanupLoop : SessTable → List SessionKey → SessTable × List SessionKey
  | tbl, [] => (tbl, [])
  | tbl, k :: rest =>
    match sget tbl k with
    | some _ =>
        let r := cleanupLoop (sdel tbl k) rest
        (r.1, k :: r.2)
    | none => cleanupLoop tbl rest

/-- `cleanupSessionsForConnection`, run from the websocket `close` (and
`error`) handler. -/
def cleanupSessionsForConnection (tbl : SessTable) (ws : Nat) :
    SessTable × List SessionKey :=
  cleanupLoop tbl (ownedKeys tbl ws)

/-- The request methods `handleMessage` dispatches on, plus the
connection-close event handled by `setupServer`. -/
inductive ServerOp
  | fsReadDir (p : String)
  | fsReadFile (p : String)
  | fsWriteFile (p c : String)
  | fsStat (p : String)
  | terminalExec (cmd : String)
  | terminalCreate
  | terminalInput (k : SessionKey) (d : String)
  | terminalResize (k : SessionKey) (cols rows : Nat)
  | terminalKill (k : SessionKey) (signal : String)
  | systemInfo
  | connClose (ws : Nat)
  deriving DecidableEq, Repr

/-- The session keys on which an operation invokes the backend's `kill`:
only the `terminal.kill` arm (when the key is live) and the
connection-close cleanup ever do; every other arm of `handleMessage`
touches no process. -/
def opKills (tbl : SessTable) : ServerOp → List SessionKey
  | .terminalKill k _ => match sget tbl k with | some _ => [k] | none => []
  | .connClose ws => (cleanupSessionsForConnection tbl ws).2
  | _ => []

/-- How a pending request was settled: `resolve(result)`,
`reject(serverError)`, or `reject(new Error('Request timeout'))`. -/
inductive Outcome
  | resolvedOk
  | rejectedError
  | rejectedTimeout
  deriving DecidableEq, Repr

/-- An entry of `pendingRequests`: either a plain resolve/reject pair from
`sendRequest`, or a streaming entry from `createTerminalSession`
(`streamHandler` present). -/
structure PendingEntry where
  streaming : Bool
  deriving DecidableEq, Repr

/-- Client-side correlation state: the `requestId` counter, the
`pendingRequests` map, and (for the proofs) the log of settlements
performed so far. -/
structure ClientState where
  requestId : Nat
  pending : List (Nat × PendingEntry)
  resolutions : List (Nat × Outcome)
  deriving DecidableEq, Repr

/-- `pendingRequests.get`. -/
def pget : List (Nat × PendingEntry) → Nat → Option PendingEntry
  | [], _ => none
  | (k, v) :: rest, n => if k = n then some v else pget rest n

/-- `pendingRequests.delete`. -/
def pdel : List (Nat × PendingEntry) → Nat → List (Nat × PendingEntry)
  | [], _ => []
  | (k, v) :: rest, n => if k = n then pdel rest n else (k, v) :: pdel rest n

/-- `sendRequest`: allocate `id = ++this.requestId`, store a resolve/reject
pair under it, send, and arm a 30-second timeout for that id. -/
def sendRequest (s : ClientState) : ClientState × Nat :=
  let i := s.requestId + 1
  ({ requestId := i,
     pending := (i, { streaming := false }) :: s.pending,
     resolutions := s.resolutions }, i)

/-- The client's `createTerminalSession`: allocate `id = ++this.requestId`
and store a streaming handler under it (no timeout is armed). -/
def sendStreaming (s : ClientState) : ClientState × Nat :=
  let i := s.requestId + 1
  ({ requestId := i,
     pending := (i, { streaming := true }) :: s.pending,
     resolutions := s.resolutions }, i)

/-- Correlation ids on the wire: the reserved greeting id `'welcome'`,
`null`, or a numeric request id. -/
inductive RId
  | welcome
  | nullId
  | num (n : Nat)
  deriving DecidableEq, Repr

/-- `handleResponse`: the greeting and `null` ids return early; a numeric
id is looked up in `pendingRequests`; an unknown id is logged and dropped;
a streaming entry is removed only when `response.result &&
(response.result.type === 'exit' || response.error)` — a response without
a `result` object never removes it; a single-shot entry is removed and
settled (reject on `response.error`, resolve otherwise).  `hasResult`,
`isError` and `isExitFrame` are the truth of `response.result`,
`response.error` and `response.result.type === 'exit'` respectively. -/
def handleResponse (s : ClientState) (id : RId) (hasResult : Bool)
    (isError : Bool) (isExitFrame : Bool) : ClientState :=
  match id with
  | .welcome => s
  | .nullId => s
  | .num n =>
    match pget s.pending n with
    | none => s
    | some e =>
      if e.streaming then
        if hasResult && (isExitFrame || isError) then
          { s with pending := pdel s.pending n }
        else s
      else
        { s with pending := pdel s.pending n,
                 resolutions :=
                   (n, if isError then Outcome.rejectedError
                       else Outcome.resolvedOk) :: s.resolutions }

/-- The timeout callback armed by `sendRequest`: after 30 s, if the id is
still pending, delete it and reject with a timeout error; if it was
already settled, do nothing. -/
def fireTimeout (s : ClientState) (n : Nat) : ClientState :=
  match pget s.pending n with
  | none => s
  | some _ =>
      { s with pending := pdel s.pending n,
               resolutions := (n, Outcome.rejectedTimeout) :: s.resolutions }

/-- Events the single-threaded client event loop can process.  A response
carries whether it has a `result` object, whether it has an `error`, and
whether its result's `type` is `'exit'`. -/
inductive CEvent
  | response (id : RId) (hasResult : Bool) (isError : Bool) (isExitFrame : Bool)
  | timeout (n : Nat)
  | send
  | sendStream
  deriving DecidableEq, Repr

/-- One event-loop step. -/
def stepC (s : ClientState) : CEvent → ClientState
  | .response id hr e t => handleResponse s id hr e t
  | .timeout n => fireTimeout s n
  | .send => (sendRequest s).1
  | .sendStream => (sendStreaming s).1

/-- Process a list of events in order. -/
def runC : ClientState → List CEvent → ClientState
  | s, [] => s
  | s, e :: rest => runC (stepC s e) rest

/-- How many times request id `i` has been settled. -/
def countRes (s : ClientState) (i : Nat) : Nat :=
  (s.resolutions.filter (fun r => r.1 == i)).length

/-- 1 when id `i` is still pending, 0 otherwise. -/
def presCount (s : ClientState) (i : Nat) : Nat :=
  if pget s.pending i = none then 0 else 1

/-- Whether an event is a response or timeout for id `i`. -/
def touchesId (i : Nat) : CEvent → Bool
  | .response (.num n) _ _ _ => n == i
  | .timeout n => n == i
  | _ => false

/-- Outcome of the synchronous part of `createTerminalSession` /
`fallbackToSpawn`: which backend variant got stored in `activeSessions`,
and the `ready` frame sent to the caller. -/
structure CreateOutcome where
  backend : BackendKind
  registered : Bool
  readyFrame : Frame
  deriving DecidableEq, Repr

/-- `fallbackToSpawn`: spawns the shell with piped stdio, stores a
`type:'spawn'` session, and sends the same `{type:'ready', pid, shell}`
frame the pty path sends. -/
def fallbackToSpawn (pid : Nat) (shell : String) : CreateOutcome :=
  { backend := BackendKind.spawn, registered := true,
    readyFrame := Frame.ready pid shell }

/-- `createTerminalSession`: if the pty library loaded (`if (pty)`) try
`pty.spawn`; on a throw, catch and call `fallbackToSpawn`; if the library
is unavailable, call `fallbackToSpawn` directly. -/
def createTerminalSession (ptyAvailable ptySpawnOk : Bool)
    (pid : Nat) (shell : String) : CreateOutcome :=
  if ptyAvailable then
    if ptySpawnOk then
      { backend := BackendKind.pty, registered := true,
        readyFrame := Frame.ready pid shell }
    else fallbackToSpawn pid shell
  else fallbackToSpawn pid shell

/-- The `terminal.create` arm of `handleMessage`: with an id present it
starts the session and returns `null` (no single-shot response at all, so
no error response either); without an id it throws, which the catch block
turns into an error response. -/
def handleTerminalCreateMessage (hasId : Bool)
    (ptyAvailable ptySpawnOk : Bool) (pid : Nat) (shell : String) :
    Option String × Option CreateOutcome :=
  if hasId then
    (none, some (createTerminalSession ptyAvailable ptySpawnOk pid shell))
  else
    (some "Session ID is required for terminal creation", none)

/-- The part of the one-time welcome greeting relevant here: the
`ptySupported: !!pty` capability flag. -/
structure WelcomeInfo where
  ptySupported : Bool
  shell : String
  deriving DecidableEq, Repr

/-- The welcome message sent once per connection on `connection` open. -/
def welcomeMessage (ptyAvailable : Bool) (shell : String) : WelcomeInfo :=
  { ptySupported := ptyAvailable, shell := shell }

/-- The `signal` field of a frame (`none` when the frame carries no signal
field). -/
def frameSignal : Frame → Option Nat
  | Frame.exit _ sg => sg
  | _ => none

/-- Result of the readiness poll `waitForServerReady`: the outcome, how
many probe attempts were made, how many times the midpoint diagnostics
(process listing + log tail) were captured, and how many 2-second delays
were slept. -/
structure PollOut where
  outcome : Except String Nat
  attempts : Nat
  diags : Nat
  delays : Nat

/-- The `for (let i = 0; i < 15; i++)` loop of `waitForServerReady`: try
`testServerConnection()`; on success return; on failure capture
diagnostics when `i === 7`, sleep 2 s, and continue; after the loop throw
`Server failed to respond after 15 attempts`. -/
def pollLoop (probe : Nat → Bool) : Nat → Nat → PollOut
  | _, 0 =>
    { outcome := Except.error "Server failed to respond after 15 attempts",
      attempts := 0, diags := 0, delays := 0 }
  | i, fuel + 1 =>
    if probe i then
      { outcome := Except.ok i, attempts := 1, diags := 0, delays := 0 }
    else
      let r := pollLoop probe (i + 1) fuel
      { outcome := r.outcome, attempts := r.attempts + 1,
        diags := r.diags + (if i = 7 then 1 else 0), delays := r.delays + 1 }

/-- `waitForServerReady`, probing at most 15 times. -/
def waitForServerReady (probe : Nat → Bool) : PollOut :=
  pollLoop probe 0 15

/-- `ensureServerRunning`: if the first probe succeeds, done; otherwise
deploy, start, then run the readiness poll; any thrown step aborts. -/
def ensureServerRunning (alreadyUp deployOk startOk : Bool)
    (probe : Nat → Bool) : Except String Unit :=
  if alreadyUp then Except.ok ()
  else if !deployOk then Except.error "Server deployment failed"
  else if !startOk then Except.error "Server start failed"
  else
    match (waitForServerReady probe).outcome with
    | Except.ok _ => Except.ok ()
    | Except.error e => Except.error e

/-- Which transport the negotiation ended on. -/
inductive TransportKind
  | direct
  | tunneled
  deriving DecidableEq, Repr

/-- The SSH `ready` handler of `connect`: `ensureServerRunning` first,
then `connectWebSocket`; if bootstrap throws, the promise is rejected and
the transport negotiation is never attempted.  The boolean records
whether negotiation was attempted. -/
def connectReadyHandler (alreadyUp deployOk startOk : Bool)
    (probe : Nat → Bool) (negotiate : Except String TransportKind) :
    Except String TransportKind × Bool :=
  match ensureServerRunning alreadyUp deployOk startOk probe with
  | Except.error e => (Except.error e, false)
  | Except.ok _ => (negotiate, true)

/-- `connectWebSocketDirect`: resolve when the socket's `open` event fires
first; reject on an `error` event; a 5000 ms timer rejects with `Direct
connection timeout` if the socket is not open by then.  `openAt`/`errAt`
are the times of the respective events when they ever fire. -/
def connectWebSocketDirect (openAt errAt : Option Nat) : Except String Unit :=
  match openAt, errAt with
  | some o, some e =>
      if o ≤ e then
        if o ≤ 5000 then Except.ok ()
        else Except.error "Direct connection timeout"
      else Except.error "WebSocket error"
  | some o, none =>
      if o ≤ 5000 then Except.ok ()
      else Except.error "Direct connection timeout"
  | none, some _ => Except.error "WebSocket error"
  | none, none => Except.error "Direct connection timeout"

/-- `connectWebSocketTunnel`: forward a stream through the existing SSH
connection to port 8080 and open the websocket over it. -/
def connectWebSocketTunnel (tunnelOk : Bool) (tunnelErr : String) :
    Except String Unit :=
  if tunnelOk then Except.ok () else Except.error tunnelErr

/-- `connectWebSocket`: try the direct connection; on any failure try the
SSH tunnel; there is no third option. -/
def connectWebSocket (openAt errAt : Option Nat) (tunnelOk : Bool)
    (tunnelErr : String) : Except String TransportKind :=
  match connectWebSocketDirect openAt errAt with
  | Except.ok _ => Except.ok TransportKind.direct
  | Except.error _ =>
      match connectWebSocketTunnel tunnelOk tunnelErr with
      | Except.ok _ => Except.ok TransportKind.tunneled
      | Except.error e => Except.error e

/-- Model filesystem lookup (contents keyed by path). -/
def fget : List (String × String) → String → Option String
  | [], _ => none
  | (p, c) :: rest, q => if p = q then some c else fget rest q

/-- Model filesystem store: replace or append the binding for a path. -/
def fset : List (String × String) → String → String → List (String × String)
  | [], p, c => [(p, c)]
  | (p1, c1) :: rest, p, c =>
    if p1 = p then (p, c) :: rest else (p1, c1) :: fset rest p c

/-- The characters before the last `/` of a path, `none` when the path has
no `/`. -/
def chopToLastSlash : List Char → Option (List Char)
  | [] => none
  | ch :: rest =>
    match chopToLastSlash rest with
    | some r => some (ch :: r)
    | none => if ch = '/' then some [] else none

/-- `path.dirname` for slash-separated paths without trailing slashes, as
`writeFile` uses it to create the parent directory. -/
def dirname (p : String) : String :=
  match chopToLastSlash p.data with
  | none => "."
  | some [] => "/"
  | some cs => String.mk cs

/-- Model of the remote host's filesystem visible to the relay: file
contents by path, existing directories, and paths on which access is
denied (both reads and writes fail there with `EACCES`). -/
structure ModelFS where
  files : List (String × String)
  dirs : List String
  denied : List String
  deriving DecidableEq, Repr

/-- `fs.mkdir(dir, { recursive: true })`: succeeds whether or not the
directory exists. -/
def mkdirRecursive (fs : ModelFS) (d : String) : ModelFS :=
  if fs.dirs.contains d then fs else { fs with dirs := d :: fs.dirs }

/-- The server's `writeFile`: ensure the parent directory exists
(`fs.mkdir` recursive on `path.dirname`), then write the UTF-8 content;
the underlying `fs.writeFile` rejects with an `EACCES` error on a denied
path. -/
def writeFile (fs : ModelFS) (p c : String) : Except String ModelFS :=
  if fs.denied.contains p then
    Except.error ("EACCES: permission denied, open " ++ p)
  else
    let fs1 := mkdirRecursive fs (dirname p)
    Except.ok { fs1 with files := fset fs1.files p c }

/-- The server's `readFile`: promisified `fs.readFile(path, 'utf8')`,
rejecting with the usual node error messages. -/
def readFile (fs : ModelFS) (p : String) : Except String String :=
  if fs.denied.contains p then
    Except.error ("EACCES: permission denied, open " ++ p)
  else
    match fget fs.files p with
    | some c => Except.ok c
    | none => Except.error ("ENOENT: no such file or directory, open " ++ p)

/-- The stat result object `getStat` builds from `fs.stat`. -/
structure StatInfo where
  size : Nat
  isFile : Bool
  isDirectory : Bool
  isSymbolicLink : Bool
  mode : Nat
  deriving DecidableEq, Repr

/-- The server's `getStat`: promisified `fs.stat`; a denied path rejects
with node's `EACCES` message, a missing path with node's `ENOENT`
message. -/
def getStat (fs : ModelFS) (p : String) : Except String StatInfo :=
  if fs.denied.contains p then
    Except.error ("EACCES: permission denied, stat " ++ p)
  else
    match fget fs.files p with
    | some c =>
        Except.ok { size := c.length, isFile := true, isDirectory := false,
                    isSymbolicLink := false, mode := 420 }
    | none =>
        if fs.dirs.contains p then
          Except.ok { size := 0, isFile := false, isDirectory := true,
                      isSymbolicLink := false, mode := 493 }
        else Except.error ("ENOENT: no such file or directory, stat " ++ p)

/-- Whether `sub` is an initial segment of `l` (`String.includes` helper,
character-by-character). -/
def startsWithL : List Char → List Char → Bool
  | _, [] => true
  | [], _ :: _ => false
  | c :: cs, d :: ds => c == d && startsWithL cs ds

/-- Whether `sub` occurs somewhere in `l`. -/
def containsSubL : List Char → List Char → Bool
  | [], sub => sub.isEmpty
  | c :: cs, sub => startsWithL (c :: cs) sub || containsSubL cs sub

/-- JavaScript's `String.prototype.includes`. -/
def containsSub (s sub : String) : Bool :=
  containsSubL s.data sub.data

/-- An RPC error code: `number | string` in the wire interface. -/
inductive ErrCode
  | num (n : Int)
  | str (s : String)
  deriving DecidableEq, Repr

/-- The error mapping of `handleMessage`'s catch block: default
`-32603` internal error, overridden to `'ENOENT'` when the message
includes `ENOENT` or `no such file`, to `'EACCES'` when it includes
`EACCES`, and to `'EISDIR'` when it includes `EISDIR` (checked in that
order). -/
def mapErrorCode (msg : String) (p : String) : ErrCode × String :=
  if containsSub msg "ENOENT" || containsSub msg "no such file" then
    (ErrCode.str "ENOENT", "File not found: " ++ p)
  else if containsSub msg "EACCES" then
    (ErrCode.str "EACCES", "Permission denied: " ++ p)
  else if containsSub msg "EISDIR" then
    (ErrCode.str "EISDIR", "Is a directory: " ++ p)
  else (ErrCode.num (-32603), msg)

/-- The error code of the response to an `fs.stat` request, `none` when
the stat succeeds. -/
def statResponseCode (fs : ModelFS) (p : String) : Option ErrCode :=
  match getStat fs p with
  | Except.ok _ => none
  | Except.error msg => some (mapErrorCode msg p).1

/-- The tracking invariant for one single-shot request id `i`: `i` has
been settled exactly once, or is still pending (non-streaming) and never
settled; and `i` is within the already-allocated id range. -/
def TrackInv (i : Nat) (s : ClientState) : Prop :=
  countRes s i + presCount s i = 1
  ∧ i ≤ s.requestId
  ∧ ∀ e, pget s.pending i = some e → e.streaming = false

/-- A concrete server state with two client connections: connection `0`
owns session `1`, connection `1` owns session `2`.  `activeSessions` is a
single server-wide table shared by all connections. -/
def c3Table : SessTable :=
  [(1, { kind := BackendKind.pty, owner := 0, killThrows := false }),
   (2, { kind := BackendKind.spawn, owner := 1, killThrows := false })]

/-- A host filesystem with a single permission-denied path, matching the
spec's stat scenario. -/
def c9Fs : ModelFS :=
  { files := [], dirs := [], denied := ["/no/permission"] }

/-- Data events neither delete the registry entry nor stop frame emission:
processing a block of `data` events prepends the corresponding `data`
frames and leaves the registry evolution of the remaining events
untouched. -/
theorem sessionRun_data_map (kind : BackendKind) (k : SessionKey)
    (datas : List String) :
    ∀ (reg : List SessionKey) (rest : List BEvent),
      sessionRun kind reg k (datas.map BEvent.data ++ rest)
        = ((sessionRun kind reg k rest).1,
           datas.map Frame.data ++ (sessionRun kind reg k rest).2) := by
  induction datas with
  | nil => intro reg rest; simp
  | cons d ds ih =>
      intro reg rest
      simp [sessionRun, sessionEventDeletes, sessionEventFrame, ih reg rest]

/-- Once the registry is empty it stays empty, whatever backend events
still arrive. -/
theorem sessionRun_reg_nil (kind : BackendKind) (k : SessionKey) :
    ∀ evs : List BEvent, (sessionRun kind [] k evs).1 = [] := by
  intro evs
  induction evs with
  | nil => rfl
  | cons e rest ih => simp [sessionRun, ih]

/-- The client delivers a run of `data` frames unchanged, delivers the
first terminal `exit` frame, and discards everything after it. -/
theorem clientDeliver_data_exit (c : Int) (sg : Option Nat) :
    ∀ (datas : List String) (tail : List Frame),
      clientDeliver (datas.map Frame.data ++ Frame.exit c sg :: tail)
        = datas.map Frame.data ++ [Frame.exit c sg] := by
  intro datas
  induction datas with
  | nil => intro tail; simp [clientDeliver, isTerminalFrame]
  | cons d ds ih => intro tail; simp [clientDeliver, isTerminalFrame, ih]

/-- A spawn-backed session emits an error frame exactly for the spawn
child's `error` events — the only session-creation failure the caller ever
sees. -/
theorem spawn_error_frame_iff (k : SessionKey) (m : String) :
    ∀ (evs : List BEvent) (reg : List SessionKey),
      Frame.error m ∈ (sessionRun BackendKind.spawn reg k evs).2
        ↔ BEvent.errored m ∈ evs := by
  intro evs
  induction evs with
  | nil => intro reg; simp [sessionRun]
  | cons e rest ih =>
      intro reg
      cases e with
      | data s => simp [sessionRun, sessionEventFrame, ih]
      | exited c sg => simp [sessionRun, sessionEventFrame, spawnCloseFrame, ih]
      | errored m2 => simp [sessionRun, sessionEventFrame, ih]

/-- A pty-backed session never emits an error frame: the pty path installs
no error handler. -/
theorem pty_no_error_frame (k : SessionKey) (m : String) :
    ∀ (evs : List BEvent) (reg : List SessionKey),
      Frame.error m ∉ (sessionRun BackendKind.pty reg k evs).2 := by
  intro evs
  induction evs with
  | nil => intro reg; simp [sessionRun]
  | cons e rest ih =>
      intro reg
      cases e with
      | data s => simp [sessionRun, sessionEventFrame, ih]
      | exited c sg => simp [sessionRun, sessionEventFrame, ptyExitFrame, ih]
      | errored m2 => simp [sessionRun, sessionEventFrame, ih]

/-- Claim C1: for every session created by `terminal.create` with key `k`
— pty-backed or spawn-backed fallback alike — the consumer observes
exactly one `ready` frame first, then the backend's data frames in
emission order, then exactly one `exit` frame (the pty exit frame carries
the backend's signal, the spawn close frame carries none); the registry
entry for `k` is removed at the exit event, and no frame for `k` produced
after the exit frame is ever delivered to the consumer (the exit frame
deletes the client's pending entry, so any later frame for `k` is
discarded). -/
theorem terminal_session_lifecycle (kind : BackendKind)
    (datas : List String) (post : List BEvent) (c : Int) (sg : Option Nat)
    (pid : Nat) (shell : String) (k : SessionKey) :
    consumerTrace kind pid shell [k] k
        (datas.map BEvent.data ++ BEvent.exited c sg :: post)
      = Frame.ready pid shell
          :: (datas.map Frame.data ++ [exitFrameOf kind c sg])
    ∧ (sessionRun kind [k] k
        (datas.map BEvent.data ++ BEvent.exited c sg :: post)).1 = [] := by
  have hrun := sessionRun_data_map kind k datas [k]
      (BEvent.exited c sg :: post)
  have hreg : (sessionRun kind [k] k
      (BEvent.exited c sg :: post)).1 = [] := by
    cases kind <;> simp [sessionRun, sessionEventDeletes, sessionRun_reg_nil]
  constructor
  · have hframes : (sessionRun kind [k] k
        (BEvent.exited c sg :: post)).2
          = exitFrameOf kind c sg :: (sessionRun kind [] k post).2 := by
      cases kind <;>
        simp [sessionRun, sessionEventDeletes, sessionEventFrame,
          ptyExitFrame, spawnCloseFrame, exitFrameOf]
    simp only [consumerTrace, serverSessionFrames, hrun, hframes]
    cases kind <;>
      simp [clientDeliver, isTerminalFrame, exitFrameOf, ptyExitFrame,
        spawnCloseFrame, clientDeliver_data_exit]
  · rw [hrun]; exact hreg

/-- Deleting a key removes it from the table. -/
theorem sget_sdel_self (tbl : SessTable) (k : SessionKey) :
    sget (sdel tbl k) k = none := by
  induction tbl with
  | nil => rfl
  | cons kv rest ih =>
      obtain ⟨k1, v⟩ := kv
      by_cases h : k1 = k
      · simpa [sdel, h] using ih
      · simpa [sdel, sget, h] using ih

/-- Deleting one key leaves every other key's binding unchanged. -/
theorem sget_sdel_ne (tbl : SessTable) (k k' : SessionKey) (h : k' ≠ k) :
    sget (sdel tbl k) k' = sget tbl k' := by
  have h' : k ≠ k' := Ne.symm h
  induction tbl with
  | nil => rfl
  | cons kv rest ih =>
      obtain ⟨k1, v⟩ := kv
      by_cases h1 : k1 = k
      · subst h1
        simp [sdel, sget, h', ih]
      · by_cases h2 : k1 = k'
        · subst h2
          simp [sdel, sget, h1]
        · simp [sdel, sget, h1, h2, ih]

/-- `sdel` is pointwise filtering on the key. -/
theorem sdel_eq_filter (tbl : SessTable) (k : SessionKey) :
    sdel tbl k = tbl.filter (fun kv => !(kv.1 == k)) := by
  induction tbl with
  | nil => rfl
  | cons kv rest ih =>
      obtain ⟨k1, v⟩ := kv
      by_cases h : k1 = k <;> simp [sdel, h, ih, List.filter_cons]

/-- In a table with unique keys, membership determines the lookup. -/
theorem sget_of_mem_nodup (tbl : SessTable)
    (hnd : (tbl.map Prod.fst).Nodup) (k : SessionKey) (v : SessionRec)
    (hm : (k, v) ∈ tbl) : sget tbl k = some v := by
  induction tbl with
  | nil => cases hm
  | cons kv rest ih =>
      obtain ⟨k1, v1⟩ := kv
      rw [List.map_cons, List.nodup_cons] at hnd
      rcases List.mem_cons.mp hm with he | hr
      · injection he with hk hv
        simp [sget, hk, hv]
      · by_cases h1 : k1 = k
        · exfalso
          apply hnd.1
          have hkm : k ∈ rest.map Prod.fst := List.mem_map_of_mem Prod.fst hr
          rw [h1]
          exact hkm
        · simpa [sget, h1] using ih hnd.2 hr

/-- When every collected key is live and the keys are distinct, the
cleanup loop kills each collected key exactly once and deletes them all. -/
theorem cleanupLoop_all_present :
    ∀ (ks : List SessionKey) (tbl : SessTable), ks.Nodup →
      (∀ k ∈ ks, (sget tbl k).isSome) →
      cleanupLoop tbl ks = (ks.foldl sdel tbl, ks) := by
  intro ks
  induction ks with
  | nil => intro tbl _ _; rfl
  | cons k rest ih =>
      intro tbl hnd hpres
      obtain ⟨v, hv⟩ := Option.isSome_iff_exists.mp (hpres k (List.mem_cons_self k rest))
      rw [List.nodup_cons] at hnd
      have hrest : ∀ k' ∈ rest, (sget (sdel tbl k) k').isSome := by
        intro k' hk'
        rw [sget_sdel_ne tbl k k' (fun he => hnd.1 (he ▸ hk'))]
        exact hpres k' (List.mem_cons_of_mem k hk')
      simp [cleanupLoop, hv, ih (sdel tbl k) hnd.2 hrest, List.foldl_cons]

/-- Folding deletions over a key list filters those keys out of the
table. -/
theorem foldl_sdel_eq_filter :
    ∀ (ks : List SessionKey) (tbl : SessTable),
      ks.foldl sdel tbl = tbl.filter (fun kv => !(ks.contains kv.1)) := by
  intro ks
  induction ks with
  | nil => intro tbl; simp
  | cons k rest ih =>
      intro tbl
      rw [List.foldl_cons, ih (sdel tbl k), sdel_eq_filter, List.filter_filter]
      apply List.filter_congr
      intro kv _
      by_cases hx : kv.1 = k <;> simp [List.contains_cons, hx]

/-- In a unique-key table, a key is collected for cleanup exactly when its
session is owned by the closing connection. -/
theorem mem_ownedKeys_iff (tbl : SessTable)
    (hnd : (tbl.map Prod.fst).Nodup) (ws : Nat) (kv : SessionKey × SessionRec)
    (hkv : kv ∈ tbl) :
    kv.1 ∈ ownedKeys tbl ws ↔ kv.2.owner = ws := by
  constructor
  · intro hc
    simp only [ownedKeys, List.mem_map, List.mem_filter] at hc
    obtain ⟨kv', ⟨hmem', hown'⟩, hfst⟩ := hc
    have e1 : sget tbl kv.1 = some kv.2 :=
      sget_of_mem_nodup tbl hnd kv.1 kv.2 hkv
    have e2 : sget tbl kv'.1 = some kv'.2 :=
      sget_of_mem_nodup tbl hnd kv'.1 kv'.2 hmem'
    rw [← hfst, e2] at e1
    have e3 : kv'.2 = kv.2 := Option.some.inj e1
    rw [← e3]
    exact beq_iff_eq.mp hown'
  · intro ho
    simp only [ownedKeys, List.mem_map, List.mem_filter]
    exact ⟨kv, ⟨hkv, beq_iff_eq.mpr ho⟩, rfl⟩

/-- The cleanup performed on connection close: one kill per owned session,
and the table afterwards is the original minus the closing connection's
sessions. -/
theorem cleanup_spec (tbl : SessTable) (ws : Nat)
    (hnd : (tbl.map Prod.fst).Nodup) :
    (cleanupSessionsForConnection tbl ws).2 = ownedKeys tbl ws
    ∧ (cleanupSessionsForConnection tbl ws).1
        = tbl.filter (fun kv => kv.2.owner != ws) := by
  have howned_nd : (ownedKeys tbl ws).Nodup := by
    have hsub : List.Sublist (ownedKeys tbl ws) (tbl.map Prod.fst) :=
      (List.filter_sublist tbl).map Prod.fst
    exact hnd.sublist hsub
  have hpres : ∀ k ∈ ownedKeys tbl ws, (sget tbl k).isSome := by
    intro k hk
    simp only [ownedKeys, List.mem_map, List.mem_filter] at hk
    obtain ⟨kv, ⟨hmem, _⟩, hfst⟩ := hk
    rw [← hfst, sget_of_mem_nodup tbl hnd kv.1 kv.2 hmem]
    rfl
  have hloop := cleanupLoop_all_present (ownedKeys tbl ws) tbl howned_nd hpres
  constructor
  · rw [cleanupSessionsForConnection, hloop]
  · rw [cleanupSessionsForConnection, hloop]
    simp only [foldl_sdel_eq_filter]
    apply List.filter_congr
    intro kv hkv
    have hiff := mem_ownedKeys_iff tbl hnd ws kv hkv
    by_cases ho : kv.2.owner = ws
    · have hmem := hiff.mpr ho
      simp [hmem, ho]
    · have hnmem : kv.1 ∉ ownedKeys tbl ws := fun hc => ho (hiff.mp hc)
      simp [hnmem, ho]

/-- Deleting a pending id removes it. -/
theorem pget_pdel_self (l : List (Nat × PendingEntry)) (n : Nat) :
    pget (pdel l n) n = none := by
  induction l with
  | nil => rfl
  | cons kv rest ih =>
      obtain ⟨k, v⟩ := kv
      by_cases h : k = n
      · simpa [pdel, h] using ih
      · simpa [pdel, pget, h] using ih

/-- Deleting one pending id leaves the others' entries unchanged. -/
theorem pget_pdel_ne (l : List (Nat × PendingEntry)) (n m : Nat) (h : m ≠ n) :
    pget (pdel l n) m = pget l m := by
  have h' : n ≠ m := Ne.symm h
  induction l with
  | nil => rfl
  | cons kv rest ih =>
      obtain ⟨k, v⟩ := kv
      by_cases h1 : k = n
      · subst h1
        simp [pdel, pget, h', ih]
      · by_cases h2 : k = m
        · subst h2
          simp [pdel, pget, h1]
        · simp [pdel, pget, h1, h2, ih]

/-- An id above every key of the table is not in the table. -/
theorem pget_none_of_bound (l : List (Nat × PendingEntry)) (m : Nat)
    (hb : ∀ kv ∈ l, kv.1 ≤ m) : pget l (m + 1) = none := by
  induction l with
  | nil => rfl
  | cons kv rest ih =>
      obtain ⟨k, v⟩ := kv
      have hk : k ≤ m := hb (k, v) (List.mem_cons_self _ _)
      have hne : k ≠ m + 1 := by omega
      simpa [pget, hne] using ih fun kv h => hb kv (List.mem_cons_of_mem _ h)

/-- Settling an id distinct from `i` leaves the invariant state for `i`
untouched. -/
theorem trackInv_settle_ne (i n : Nat) (s : ClientState) (o : Outcome)
    (hni : n ≠ i) (h : TrackInv i s) :
    TrackInv i { s with pending := pdel s.pending n,
                        resolutions := (n, o) :: s.resolutions } := by
  obtain ⟨hcp, hle, hstr⟩ := h
  refine ⟨?_, hle, ?_⟩
  · have hfe : (n == i) = false := by simpa using hni
    simpa [countRes, presCount, List.filter_cons, hfe,
      pget_pdel_ne s.pending n i (Ne.symm hni)] using hcp
  · intro e2 he2
    rw [pget_pdel_ne s.pending n i (Ne.symm hni)] at he2
    exact hstr e2 he2

/-- Settling `i` itself while it is pending: afterwards it has been
settled exactly once and is no longer pending. -/
theorem trackInv_settle_self (i : Nat) (s : ClientState) (o : Outcome)
    (en : PendingEntry) (hg : pget s.pending i = some en)
    (h : TrackInv i s) :
    TrackInv i { s with pending := pdel s.pending i,
                        resolutions := (i, o) :: s.resolutions } := by
  obtain ⟨hcp, hle, hstr⟩ := h
  have hpres : presCount s i = 1 := by simp [presCount, hg]
  have hcnt : countRes s i = 0 := by omega
  refine ⟨?_, hle, ?_⟩
  · simp only [countRes, presCount, List.filter_cons] at *
    simp [pget_pdel_self, hcnt]
  · intro e2 he2
    rw [pget_pdel_self] at he2
    cases he2

/-- Deleting an id distinct from `i` without settling anything preserves
the invariant for `i`. -/
theorem trackInv_del_ne (i n : Nat) (s : ClientState) (hni : n ≠ i)
    (h : TrackInv i s) :
    TrackInv i { s with pending := pdel s.pending n } := by
  obtain ⟨hcp, hle, hstr⟩ := h
  refine ⟨?_, hle, ?_⟩
  · simpa [countRes, presCount,
      pget_pdel_ne s.pending n i (Ne.symm hni)] using hcp
  · intro e2 he2
    rw [pget_pdel_ne s.pending n i (Ne.symm hni)] at he2
    exact hstr e2 he2

/-- Every event-loop step preserves the tracking invariant. -/
theorem stepC_preserves (i : Nat) (s : ClientState) (e : CEvent)
    (h : TrackInv i s) : TrackInv i (stepC s e) := by
  cases e with
  | response id hasRes isErr isExit =>
      cases id with
      | welcome => exact h
      | nullId => exact h
      | num n =>
          cases hg : pget s.pending n with
          | none =>
              have hstep : stepC s (CEvent.response (RId.num n) hasRes isErr isExit)
                  = s := by
                simp [stepC, handleResponse, hg]
              rw [hstep]; exact h
          | some en =>
              by_cases hs : en.streaming
              · by_cases hterm : (hasRes && (isExit || isErr)) = true
                · have hni : n ≠ i := fun he => by
                    have hf := h.2.2 en (he ▸ hg)
                    rw [hs] at hf
                    cases hf
                  have hstep : stepC s (CEvent.response (RId.num n) hasRes isErr isExit)
                      = { s with pending := pdel s.pending n } := by
                    simp [stepC, handleResponse, hg, hs, hterm]
                  rw [hstep]
                  exact trackInv_del_ne i n s hni h
                · have hstep : stepC s (CEvent.response (RId.num n) hasRes isErr isExit)
                      = s := by
                    simp [stepC, handleResponse, hg, hs, hterm]
                  rw [hstep]; exact h
              · have hstep : stepC s (CEvent.response (RId.num n) hasRes isErr isExit)
                    = { s with pending := pdel s.pending n, resolutions := (n, if isErr then Outcome.rejectedError else Outcome.resolvedOk) :: s.resolutions } := by
                  simp [stepC, handleResponse, hg, hs]
                rw [hstep]
                by_cases hni : n = i
                · subst hni
                  exact trackInv_settle_self n s _ en hg h
                · exact trackInv_settle_ne i n s _ hni h
  | timeout n =>
      cases hg : pget s.pending n with
      | none =>
          have hstep : stepC s (CEvent.timeout n) = s := by
            simp [stepC, fireTimeout, hg]
          rw [hstep]; exact h
      | some en =>
          have hstep : stepC s (CEvent.timeout n)
              = { s with pending := pdel s.pending n, resolutions := (n, Outcome.rejectedTimeout) :: s.resolutions } := by
            simp [stepC, fireTimeout, hg]
          rw [hstep]
          by_cases hni : n = i
          · subst hni
            exact trackInv_settle_self n s _ en hg h
          · exact trackInv_settle_ne i n s _ hni h
  | send =>
      obtain ⟨hcp, hle, hstr⟩ := h
      have hne : s.requestId + 1 ≠ i := by omega
      refine ⟨?_, ?_, ?_⟩
      · simpa [stepC, sendRequest, countRes, presCount, pget, hne] using hcp
      · show i ≤ s.requestId + 1
        omega
      · intro e2 he2
        simp only [stepC, sendRequest, pget, hne, if_false] at he2
        exact hstr e2 he2
  | sendStream =>
      obtain ⟨hcp, hle, hstr⟩ := h
      have hne : s.requestId + 1 ≠ i := by omega
      refine ⟨?_, ?_, ?_⟩
      · simpa [stepC, sendStreaming, countRes, presCount, pget, hne] using hcp
      · show i ≤ s.requestId + 1
        omega
      · intro e2 he2
        simp only [stepC, sendStreaming, pget, hne, if_false] at he2
        exact hstr e2 he2

/-- A response or timeout event for id `i` leaves `i` no longer pending
(whether it settled it just now or found it already settled). -/
theorem stepC_touch (i : Nat) (s : ClientState) (e : CEvent)
    (h : TrackInv i s) (ht : touchesId i e = true) :
    pget (stepC s e).pending i = none := by
  cases e with
  | response id hasRes isErr isExit =>
      cases id with
      | welcome => simp [touchesId] at ht
      | nullId => simp [touchesId] at ht
      | num n =>
          have hni : n = i := by simpa [touchesId] using ht
          subst hni
          cases hg : pget s.pending n with
          | none =>
              have hstep : stepC s (CEvent.response (RId.num n) hasRes isErr isExit)
                  = s := by
                simp [stepC, handleResponse, hg]
              rw [hstep]; exact hg
          | some en =>
              have hsf : en.streaming = false := h.2.2 en hg
              have hstep : stepC s (CEvent.response (RId.num n) hasRes isErr isExit)
                  = { s with pending := pdel s.pending n, resolutions := (n, if isErr then Outcome.rejectedError else Outcome.resolvedOk) :: s.resolutions } := by
                simp [stepC, handleResponse, hg, hsf]
              rw [hstep]
              exact pget_pdel_self s.pending n
  | timeout n =>
      have hni : n = i := by simpa [touchesId] using ht
      subst hni
      cases hg : pget s.pending n with
      | none =>
          have hstep : stepC s (CEvent.timeout n) = s := by
            simp [stepC, fireTimeout, hg]
          rw [hstep]; exact hg
      | some en =>
          have hstep : stepC s (CEvent.timeout n)
              = { s with pending := pdel s.pending n, resolutions := (n, Outcome.rejectedTimeout) :: s.resolutions } := by
            simp [stepC, fireTimeout, hg]
          rw [hstep]
          exact pget_pdel_self s.pending n
  | send => simp [touchesId] at ht
  | sendStream => simp [touchesId] at ht

/-- Once id `i` is gone from the pending table it never reappears: new
requests always get strictly larger ids. -/
theorem stepC_none (i : Nat) (s : ClientState) (e : CEvent)
    (h : TrackInv i s) (hn : pget s.pending i = none) :
    pget (stepC s e).pending i = none := by
  cases e with
  | response id hasRes isErr isExit =>
      cases id with
      | welcome => exact hn
      | nullId => exact hn
      | num n =>
          cases hg : pget s.pending n with
          | none =>
              have hstep : stepC s (CEvent.response (RId.num n) hasRes isErr isExit)
                  = s := by
                simp [stepC, handleResponse, hg]
              rw [hstep]; exact hn
          | some en =>
              have hni : n ≠ i := fun he => by rw [he, hn] at hg; cases hg
              by_cases hs : en.streaming
              · by_cases hterm : (hasRes && (isExit || isErr)) = true
                · have hstep : stepC s (CEvent.response (RId.num n) hasRes isErr isExit)
                      = { s with pending := pdel s.pending n } := by
                    simp [stepC, handleResponse, hg, hs, hterm]
                  rw [hstep]
                  rw [pget_pdel_ne s.pending n i (Ne.symm hni)]
                  exact hn
                · have hstep : stepC s (CEvent.response (RId.num n) hasRes isErr isExit)
                      = s := by
                    simp [stepC, handleResponse, hg, hs, hterm]
                  rw [hstep]; exact hn
              · have hstep : stepC s (CEvent.response (RId.num n) hasRes isErr isExit)
                    = { s with pending := pdel s.pending n, resolutions := (n, if isErr then Outcome.rejectedError else Outcome.resolvedOk) :: s.resolutions } := by
                  simp [stepC, handleResponse, hg, hs]
                rw [hstep]
                rw [pget_pdel_ne s.pending n i (Ne.symm hni)]
                exact hn
  | timeout n =>
      cases hg : pget s.pending n with
      | none =>
          have hstep : stepC s (CEvent.timeout n) = s := by
            simp [stepC, fireTimeout, hg]
          rw [hstep]; exact hn
      | some en =>
          have hni : n ≠ i := fun he => by rw [he, hn] at hg; cases hg
          have hstep : stepC s (CEvent.timeout n)
              = { s with pending := pdel s.pending n, resolutions := (n, Outcome.rejectedTimeout) :: s.resolutions } := by
            simp [stepC, fireTimeout, hg]
          rw [hstep]
          rw [pget_pdel_ne s.pending n i (Ne.symm hni)]
          exact hn
  | send =>
      have hne : s.requestId + 1 ≠ i := by
        have := h.2.1
        omega
      simp only [stepC, sendRequest, pget, hne, if_false]
      exact hn
  | sendStream =>
      have hne : s.requestId + 1 ≠ i := by
        have := h.2.1
        omega
      simp only [stepC, sendStreaming, pget, hne, if_false]
      exact hn

/-- The tracking invariant is preserved by any event sequence. -/
theorem runC_preserves (i : Nat) (evs : List CEvent) :
    ∀ s, TrackInv i s → TrackInv i (runC s evs) := by
  induction evs with
  | nil => intro s h; exact h
  | cons e rest ih => intro s h; exact ih _ (stepC_preserves i s e h)

/-- Absence from the pending table persists through any event sequence. -/
theorem runC_none (i : Nat) (evs : List CEvent) :
    ∀ s, TrackInv i s → pget s.pending i = none →
      pget (runC s evs).pending i = none := by
  induction evs with
  | nil => intro s _ hn; exact hn
  | cons e rest ih =>
      intro s h hn
      exact ih _ (stepC_preserves i s e h) (stepC_none i s e h hn)

/-- After any event sequence containing a response or timeout for `i`,
the id `i` is no longer pending. -/
theorem runC_touch (i : Nat) (evs : List CEvent) :
    ∀ s, TrackInv i s → (∃ e ∈ evs, touchesId i e = true) →
      pget (runC s evs).pending i = none := by
  induction evs with
  | nil =>
      intro s _ hex
      obtain ⟨e, he, _⟩ := hex
      cases he
  | cons e rest ih =>
      intro s h hex
      obtain ⟨e2, he2, ht2⟩ := hex
      rcases List.mem_cons.mp he2 with he | hmem
      · subst he
        exact runC_none i rest _ (stepC_preserves i s e2 h)
          (stepC_touch i s e2 h ht2)
      · exact ih _ (stepC_preserves i s e h) ⟨e2, hmem, ht2⟩

/-- Claim C2: every outbound single-shot request gets a fresh id (never
colliding with an outstanding entry), is stored in the pending table, and
is settled at most once ever; and whenever a matching response or the
armed 30-second timeout fires — the timeout always eventually does — the
request is settled exactly once and its entry removed, whatever other
traffic the connection carries. -/
theorem request_single_resolution (s0 : ClientState) (evs : List CEvent)
    (hp : ∀ kv ∈ s0.pending, kv.1 ≤ s0.requestId)
    (hr : ∀ r ∈ s0.resolutions, r.1 ≤ s0.requestId) :
    pget s0.pending (sendRequest s0).2 = none
    ∧ countRes (runC (sendRequest s0).1 evs) (sendRequest s0).2 ≤ 1
    ∧ ((∃ e ∈ evs, touchesId (sendRequest s0).2 e = true) →
        countRes (runC (sendRequest s0).1 evs) (sendRequest s0).2 = 1
        ∧ pget (runC (sendRequest s0).1 evs).pending (sendRequest s0).2
            = none) := by
  have hfresh : pget s0.pending (s0.requestId + 1) = none :=
    pget_none_of_bound s0.pending s0.requestId hp
  have hcount0 : countRes s0 (s0.requestId + 1) = 0 := by
    unfold countRes
    have hnil : s0.resolutions.filter
        (fun r => r.1 == s0.requestId + 1) = [] := by
      rw [List.filter_eq_nil_iff]
      intro r hrm
      have hb := hr r hrm
      simp only [beq_iff_eq]
      omega
    rw [hnil]
    rfl
  have hinv1 : TrackInv (s0.requestId + 1) (sendRequest s0).1 := by
    refine ⟨?_, Nat.le_refl _, ?_⟩
    · have hc1 : countRes (sendRequest s0).1 (s0.requestId + 1)
          = countRes s0 (s0.requestId + 1) := rfl
      have hpr : presCount (sendRequest s0).1 (s0.requestId + 1) = 1 := by
        simp [sendRequest, presCount, pget]
      rw [hc1, hcount0, hpr]
    · intro e2 he2
      simp only [sendRequest, pget, if_pos rfl] at he2
      cases he2
      rfl
  have hend := runC_preserves (s0.requestId + 1) evs _ hinv1
  have hid : (sendRequest s0).2 = s0.requestId + 1 := rfl
  refine ⟨hfresh, ?_, ?_⟩
  · rw [hid]
    have h1 := hend.1
    omega
  · rw [hid]
    intro hex
    have hnone := runC_touch (s0.requestId + 1) evs _ hinv1 hex
    have h1 := hend.1
    unfold presCount at h1
    rw [if_pos hnone] at h1
    exact ⟨by omega, hnone⟩

/-- Witness for claim C2: from a fresh client, sending one request and
letting its timeout fire settles it exactly once. -/
theorem request_single_resolution_witness :
    countRes (runC (sendRequest
        { requestId := 0, pending := [], resolutions := [] }).1
        [CEvent.timeout 1]) 1 = 1 :=
  (request_single_resolution
      { requestId := 0, pending := [], resolutions := [] }
      [CEvent.timeout 1]
      (by intro kv hkv; cases hkv)
      (by intro r hrm; cases hrm)).2.2
    ⟨CEvent.timeout 1, List.mem_cons_self _ _, by decide⟩ |>.1

/-- Claim C3 counterexample: closing connection `0`, which owns exactly
one active session, performs exactly one kill but leaves the session table
non-empty, because the table still holds connection `1`'s session — the
claim's "leaving the table empty afterward" fails on the shared table. -/
theorem connection_close_not_empty :
    (cleanupSessionsForConnection c3Table 0).2.length = 1
    ∧ (cleanupSessionsForConnection c3Table 0).1 ≠ [] := by decide

/-- Claim C3 (amended): closing a connection kills exactly the sessions it
owns (one kill per owned session, in table order) and drops each of them
from the session table; afterwards no session of that connection remains,
and the table is empty when the closing connection owned every session.
Moreover the `terminal.kill` arm and the connection-close cleanup are the
only operations that invoke a backend kill. -/
theorem connection_close_cleanup (tbl : SessTable) (ws : Nat) (op : ServerOp)
    (hnd : (tbl.map Prod.fst).Nodup) :
    (cleanupSessionsForConnection tbl ws).2 = ownedKeys tbl ws
    ∧ (cleanupSessionsForConnection tbl ws).1
        = tbl.filter (fun kv => kv.2.owner != ws)
    ∧ (∀ kv ∈ (cleanupSessionsForConnection tbl ws).1, kv.2.owner ≠ ws)
    ∧ ((∀ kv ∈ tbl, kv.2.owner = ws) →
        (cleanupSessionsForConnection tbl ws).1 = [])
    ∧ (opKills tbl op ≠ [] →
        (∃ k sig, op = ServerOp.terminalKill k sig)
        ∨ ∃ w, op = ServerOp.connClose w) := by
  obtain ⟨h2, h1⟩ := cleanup_spec tbl ws hnd
  refine ⟨h2, h1, ?_, ?_, ?_⟩
  · intro kv hkv
    rw [h1] at hkv
    have hp := (List.mem_filter.mp hkv).2
    simpa using hp
  · intro hall
    rw [h1, List.filter_eq_nil_iff]
    intro kv hkv
    simp [hall kv hkv]
  · intro hne
    cases op with
    | terminalKill k sig => exact Or.inl ⟨k, sig, rfl⟩
    | connClose w => exact Or.inr ⟨w, rfl⟩
    | fsReadDir p => exact absurd rfl hne
    | fsReadFile p => exact absurd rfl hne
    | fsWriteFile p c => exact absurd rfl hne
    | fsStat p => exact absurd rfl hne
    | terminalExec cmd => exact absurd rfl hne
    | terminalCreate => exact absurd rfl hne
    | terminalInput k d => exact absurd rfl hne
    | terminalResize k c r => exact absurd rfl hne
    | systemInfo => exact absurd rfl hne

/-- Witness for the amended claim C3 at a concrete two-connection state. -/
theorem connection_close_cleanup_witness :
    (cleanupSessionsForConnection c3Table 1).2 = ownedKeys c3Table 1
    ∧ (cleanupSessionsForConnection c3Table 1).1
        = c3Table.filter (fun kv => kv.2.owner != 1) :=
  ⟨(connection_close_cleanup c3Table 1 ServerOp.systemInfo (by decide)).1,
   (connection_close_cleanup c3Table 1 ServerOp.systemInfo (by decide)).2.1⟩

/-- Claim C4: `terminal.kill` is idempotent for the caller: killing an
unknown key, an already-killed key, or the same key twice always yields a
`{ success: true }` response and never surfaces an error; killing an
unknown key leaves the table untouched, and the state transition itself is
idempotent. -/
theorem terminal_kill_idempotent (tbl : SessTable) (k : SessionKey)
    (sig : String) :
    (handleTerminalKillMessage tbl k sig).2.success = true
    ∧ (handleTerminalKillMessage
        (handleTerminalKillMessage tbl k sig).1 k sig).2.success = true
    ∧ (sget tbl k = none → (handleTerminalKillMessage tbl k sig).1 = tbl)
    ∧ handleTerminalKill (handleTerminalKill tbl k sig) k sig
        = handleTerminalKill tbl k sig := by
  refine ⟨rfl, rfl, ?_, ?_⟩
  · intro h
    simp [handleTerminalKillMessage, handleTerminalKill, h]
  · cases hg : sget tbl k with
    | none => simp [handleTerminalKill, hg]
    | some s =>
        by_cases ht : s.killThrows
        · simp [handleTerminalKill, hg, ht]
        · simp [handleTerminalKill, hg, ht, sget_sdel_self]

/-- Witness for claim C4: killing an unknown key on an empty table
succeeds and changes nothing. -/
theorem terminal_kill_idempotent_witness :
    (handleTerminalKillMessage [] 5 "SIGTERM").2.success = true
    ∧ (handleTerminalKillMessage [] 5 "SIGTERM").1 = [] :=
  ⟨(terminal_kill_idempotent [] 5 "SIGTERM").1,
   (terminal_kill_idempotent [] 5 "SIGTERM").2.2.1 rfl⟩

/-- The poll never makes more attempts than its fuel allows. -/
theorem pollLoop_attempts_le (probe : Nat → Bool) :
    ∀ (fuel i : Nat), (pollLoop probe i fuel).attempts ≤ fuel := by
  intro fuel
  induction fuel with
  | zero => intro i; exact Nat.le_refl 0
  | succ f ih =>
      intro i
      by_cases h : probe i
      · simp [pollLoop, h]
      · have hf := ih (i + 1)
        simp [pollLoop, h]
        omega

/-- When every probe in range fails, the poll makes exactly `fuel`
attempts with one delay each, captures diagnostics exactly on attempt
index 7 when the range covers it, and ends in the bootstrap-timeout
error. -/
theorem pollLoop_all_fail (probe : Nat → Bool) :
    ∀ (fuel i : Nat), (∀ j, i ≤ j → j < i + fuel → probe j = false) →
      pollLoop probe i fuel =
        { outcome := Except.error "Server failed to respond after 15 attempts",
          attempts := fuel,
          diags := if i ≤ 7 ∧ 7 < i + fuel then 1 else 0,
          delays := fuel } := by
  intro fuel
  induction fuel with
  | zero =>
      intro i h
      have hc : ¬(i ≤ 7 ∧ 7 < i) := by omega
      simp [pollLoop, hc]
  | succ f ih =>
      intro i h
      have hpi : probe i = false := h i (Nat.le_refl i) (by omega)
      have hrec := ih (i + 1) (fun j hj1 hj2 => h j (by omega) (by omega))
      simp [pollLoop, hpi, hrec]
      split_ifs <;> omega

/-- Claim C6: the readiness poll probes at most 15 times with a fixed
2-second delay after each failed attempt, captures the process-listing /
log-tail diagnostics exactly once (on the midpoint attempt, index 7 of
0..14), and when all 15 probes fail the connect attempt is rejected with
the bootstrap-timeout error before any transport negotiation happens. -/
theorem bootstrap_poll_bounded_and_fatal (probe : Nat → Bool)
    (negotiate : Except String TransportKind)
    (hall : ∀ j, j < 15 → probe j = false) :
    (waitForServerReady probe).outcome
        = Except.error "Server failed to respond after 15 attempts"
    ∧ (waitForServerReady probe).attempts = 15
    ∧ (waitForServerReady probe).diags = 1
    ∧ (waitForServerReady probe).delays = 15
    ∧ (∀ q : Nat → Bool, (waitForServerReady q).attempts ≤ 15)
    ∧ connectReadyHandler false true true probe negotiate
        = (Except.error "Server failed to respond after 15 attempts", false) := by
  have hw := pollLoop_all_fail probe 15 0 (fun j _ h2 => hall j (by omega))
  have hc : ((0:Nat) ≤ 7 ∧ 7 < 0 + 15) := by omega
  refine ⟨?_, ?_, ?_, ?_, ?_, ?_⟩
  · rw [waitForServerReady, hw]
  · rw [waitForServerReady, hw]
  · rw [waitForServerReady, hw]
    simp [hc]
  · rw [waitForServerReady, hw]
  · intro q
    exact pollLoop_attempts_le q 15 0
  · simp [connectReadyHandler, ensureServerRunning, waitForServerReady, hw]

/-- Witness for claim C6 with an always-failing probe. -/
theorem bootstrap_poll_witness :
    (waitForServerReady (fun _ => false)).attempts = 15
    ∧ connectReadyHandler false true true (fun _ => false)
        (Except.ok TransportKind.direct)
        = (Except.error "Server failed to respond after 15 attempts", false) :=
  ⟨(bootstrap_poll_bounded_and_fatal (fun _ => false)
      (Except.ok TransportKind.direct) (fun _ _ => rfl)).2.1,
   (bootstrap_poll_bounded_and_fatal (fun _ => false)
      (Except.ok TransportKind.direct) (fun _ _ => rfl)).2.2.2.2.2⟩

/-- Claim C7: transport negotiation tries the direct socket first, whose
success requires the socket to open within the 5000 ms bound (a socket
that never opens is rejected with the timeout error); only when the direct
attempt fails is the SSH tunnel tried, and on its success the connection
kind is `tunneled`; when both fail the connect attempt fails — there is no
third fallback. -/
theorem transport_negotiation (openAt errAt : Option Nat) (tunnelOk : Bool)
    (tunnelErr : String) :
    connectWebSocketDirect none none = Except.error "Direct connection timeout"
    ∧ (∀ oa ea, connectWebSocketDirect oa ea = Except.ok () →
        ∃ o, oa = some o ∧ o ≤ 5000)
    ∧ (connectWebSocketDirect openAt errAt = Except.ok () →
        connectWebSocket openAt errAt tunnelOk tunnelErr
          = Except.ok TransportKind.direct)
    ∧ (connectWebSocketDirect openAt errAt ≠ Except.ok () → tunnelOk = true →
        connectWebSocket openAt errAt tunnelOk tunnelErr
          = Except.ok TransportKind.tunneled)
    ∧ (connectWebSocketDirect openAt errAt ≠ Except.ok () → tunnelOk = false →
        connectWebSocket openAt errAt tunnelOk tunnelErr
          = Except.error tunnelErr) := by
  refine ⟨rfl, ?_, ?_, ?_, ?_⟩
  · intro oa ea hok
    cases oa with
    | none =>
        cases ea with
        | none => cases hok
        | some e => cases hok
    | some o =>
        refine ⟨o, rfl, ?_⟩
        cases ea with
        | none =>
            by_cases h5 : o ≤ 5000
            · exact h5
            · simp [connectWebSocketDirect, h5] at hok
        | some e =>
            by_cases hoe : o ≤ e
            · by_cases h5 : o ≤ 5000
              · exact h5
              · simp [connectWebSocketDirect, hoe, h5] at hok
            · simp [connectWebSocketDirect, hoe] at hok
  · intro hok
    simp [connectWebSocket, hok]
  · intro hfail htun
    cases hd : connectWebSocketDirect openAt errAt with
    | ok u => exact absurd hd hfail
    | error e => simp [connectWebSocket, hd, connectWebSocketTunnel, htun]
  · intro hfail htun
    cases hd : connectWebSocketDirect openAt errAt with
    | ok u => exact absurd hd hfail
    | error e => simp [connectWebSocket, hd, connectWebSocketTunnel, htun]

/-- Witness for claim C7: a socket that never opens falls back to the
tunnel, and the connection kind is then `tunneled`. -/
theorem transport_negotiation_witness :
    connectWebSocket none none true "tunnel failed"
        = Except.ok TransportKind.tunneled :=
  (transport_negotiation none none true "tunnel failed").2.2.2.1
    (by simp [connectWebSocketDirect]) rfl

/-- Claim C5: when the pty backend cannot be acquired (library unavailable
or `pty.spawn` throws) `terminal.create` falls back to a plain spawned
shell and continues: the create call returns no error, the session is
registered, the ready frame is identical to the pty path's (the only
protocol-level trace of the capability is the `ptySupported` flag of the
one-time greeting), and a session-creation error frame is emitted only
when the spawn fallback's child itself fails. -/
theorem pty_fallback_to_spawn
    (ptyAvailable ptySpawnOk : Bool) (pid : Nat) (shell : String)
    (k : SessionKey) (m : String) (evs : List BEvent) (reg : List SessionKey) :
    (handleTerminalCreateMessage true ptyAvailable ptySpawnOk pid shell).1 = none
    ∧ (createTerminalSession ptyAvailable ptySpawnOk pid shell).registered = true
    ∧ (createTerminalSession ptyAvailable ptySpawnOk pid shell).backend
        = (if ptyAvailable && ptySpawnOk then BackendKind.pty else BackendKind.spawn)
    ∧ (createTerminalSession ptyAvailable ptySpawnOk pid shell).readyFrame
        = Frame.ready pid shell
    ∧ (welcomeMessage ptyAvailable shell).ptySupported = ptyAvailable
    ∧ (Frame.error m ∈ (sessionRun BackendKind.spawn reg k evs).2
        ↔ BEvent.errored m ∈ evs)
    ∧ Frame.error m ∉ (sessionRun BackendKind.pty reg k evs).2 := by
  refine ⟨rfl, ?_, ?_, ?_, rfl, spawn_error_frame_iff k m evs reg,
    pty_no_error_frame k m evs reg⟩
  · cases ptyAvailable <;> cases ptySpawnOk <;>
      simp [createTerminalSession, fallbackToSpawn]
  · cases ptyAvailable <;> cases ptySpawnOk <;>
      simp [createTerminalSession, fallbackToSpawn]
  · cases ptyAvailable <;> cases ptySpawnOk <;>
      simp [createTerminalSession, fallbackToSpawn]

/-- Witness for claim C5: with the pty library unavailable, the create
call still registers a (spawn) session and sends the usual ready frame. -/
theorem pty_fallback_to_spawn_witness :
    (createTerminalSession false true 7 "/bin/bash").backend
        = BackendKind.spawn
    ∧ (createTerminalSession false true 7 "/bin/bash").readyFrame
        = Frame.ready 7 "/bin/bash" := by
  have h := pty_fallback_to_spawn false true 7 "/bin/bash" 1 "boom" [] []
  exact ⟨by rw [h.2.2.1]; rfl, h.2.2.2.1⟩

/-- Claim C10: a spawn-backed session's `close` handler builds its exit
frame as `exitCode: code || 0` with no `signal` field — a `null` exit code
is reported as `0` and a spawn exit frame never carries a signal — while
the pty path's `onExit` handler forwards the backend's signal. -/
theorem spawn_exit_frame_shape :
    spawnCloseFrame none = Frame.exit 0 none
    ∧ (∀ code : Option Int, frameSignal (spawnCloseFrame code) = none)
    ∧ (∀ (c : Int) (sg : Option Nat), frameSignal (ptyExitFrame c sg) = sg) := by
  refine ⟨rfl, ?_, ?_⟩
  · intro code; cases code <;> rfl
  · intro c sg; rfl

/-- Writing a path then looking it up yields the written content. -/
theorem fget_fset_self (l : List (String × String)) (p c : String) :
    fget (fset l p c) p = some c := by
  induction l with
  | nil => simp [fset, fget]
  | cons kv rest ih =>
      obtain ⟨p1, c1⟩ := kv
      by_cases h : p1 = p
      · simp [fset, fget, h]
      · simp [fset, fget, h, ih]

/-- Claim C8: for every path and every text content — Lean strings cover
all Unicode text including embedded newlines and control characters — a
successful `writeFile(p, c)` followed by `readFile(p)` returns `c`
unchanged. -/
theorem write_read_roundtrip (fs fs2 : ModelFS) (p c : String)
    (hw : writeFile fs p c = Except.ok fs2) :
    readFile fs2 p = Except.ok c := by
  unfold writeFile at hw
  by_cases hd : fs.denied.contains p = true
  · rw [if_pos hd] at hw; cases hw
  · rw [if_neg hd] at hw
    injection hw with h2
    rw [← h2]
    have hden : (mkdirRecursive fs (dirname p)).denied = fs.denied := by
      unfold mkdirRecursive
      split <;> rfl
    have hfiles : (mkdirRecursive fs (dirname p)).files = fs.files := by
      unfold mkdirRecursive
      split <;> rfl
    have hd2 : p ∉ fs.denied := by simpa using hd
    simp [readFile, hden, hd2, fget_fset_self]

/-- Witness for claim C8: a round trip through a fresh filesystem with
content containing a newline and a control byte. -/
theorem write_read_roundtrip_witness :
    readFile { files := [("/tmp/a", "x\ny\x07z")], dirs := ["/tmp"],
               denied := [] } "/tmp/a"
      = Except.ok "x\ny\x07z" :=
  write_read_roundtrip { files := [], dirs := [], denied := [] } _
    "/tmp/a" "x\ny\x07z" rfl

/-- A prefix of `l1` is a prefix of `l1 ++ l2`. -/
theorem startsWithL_append (sub : List Char) :
    ∀ (l1 l2 : List Char), startsWithL l1 sub = true →
      startsWithL (l1 ++ l2) sub = true := by
  induction sub with
  | nil => intro l1 l2 _; cases l1 <;> simp [startsWithL]
  | cons d ds ih =>
      intro l1 l2 h
      cases l1 with
      | nil => cases h
      | cons c cs =>
          simp only [startsWithL, List.cons_append, Bool.and_eq_true] at h ⊢
          exact ⟨h.1, ih cs l2 h.2⟩

/-- A string that starts with `sub` contains `sub`. -/
theorem containsSubL_of_startsWithL (l sub : List Char)
    (h : startsWithL l sub = true) : containsSubL l sub = true := by
  cases l with
  | nil =>
      cases sub with
      | nil => rfl
      | cons d ds => cases h
  | cons c cs => simp [containsSubL, h]

/-- `(a ++ p).includes(sub)` holds whenever `a` starts with `sub`,
whatever path `p` node appended to the message. -/
theorem containsSub_append_left (a p sub : String)
    (h : startsWithL a.data sub.data = true) :
    containsSub (a ++ p) sub = true := by
  unfold containsSub
  rw [String.data_append]
  exact containsSubL_of_startsWithL _ _ (startsWithL_append _ _ _ h)

/-- Claim C9: a stat on a missing path is answered with code `'ENOENT'`,
a stat on a permission-denied path (whose path text does not itself
contain the not-found markers) with code `'EACCES'`, and these two codes
are distinct from each other and from the other error codes the server
uses (`'EISDIR'`, internal `-32603`). -/
theorem stat_error_code_distinction (fs : ModelFS) (p q : String)
    (hpd : fs.denied.contains p = false)
    (hpf : fget fs.files p = none)
    (hpr : fs.dirs.contains p = false)
    (hqd : fs.denied.contains q = true)
    (hq1 : containsSub ("EACCES: permission denied, stat " ++ q) "ENOENT"
        = false)
    (hq2 : containsSub ("EACCES: permission denied, stat " ++ q)
        "no such file" = false) :
    statResponseCode fs p = some (ErrCode.str "ENOENT")
    ∧ statResponseCode fs q = some (ErrCode.str "EACCES")
    ∧ ErrCode.str "ENOENT" ≠ ErrCode.str "EACCES"
    ∧ ErrCode.str "ENOENT" ≠ ErrCode.num (-32603)
    ∧ ErrCode.str "EACCES" ≠ ErrCode.num (-32603)
    ∧ ErrCode.str "ENOENT" ≠ ErrCode.str "EISDIR"
    ∧ ErrCode.str "EACCES" ≠ ErrCode.str "EISDIR" := by
  have hpd2 : p ∉ fs.denied := by simpa using hpd
  have hpr2 : p ∉ fs.dirs := by simpa using hpr
  have hqd2 : q ∈ fs.denied := by simpa using hqd
  refine ⟨?_, ?_, by decide, by decide, by decide, by decide, by decide⟩
  · have hmsg : containsSub
        ("ENOENT: no such file or directory, stat " ++ p) "ENOENT" = true :=
      containsSub_append_left _ _ _ (by decide)
    simp [statResponseCode, getStat, hpd2, hpf, hpr2, mapErrorCode, hmsg]
  · have hmsg : containsSub
        ("EACCES: permission denied, stat " ++ q) "EACCES" = true :=
      containsSub_append_left _ _ _ (by decide)
    simp [statResponseCode, getStat, hqd2, mapErrorCode, hq1, hq2, hmsg]

/-- Witness for claim C9 at the spec's own scenario paths. -/
theorem stat_error_code_distinction_witness :
    statResponseCode c9Fs "/missing/path" = some (ErrCode.str "ENOENT")
    ∧ statResponseCode c9Fs "/no/permission" = some (ErrCode.str "EACCES") :=
  ⟨(stat_error_code_distinction c9Fs "/missing/path" "/no/permission"
      (by decide) rfl (by decide) (by decide) (by decide) (by decide)).1,
   (stat_error_code_distinction c9Fs "/missing/path" "/no/permission"
      (by decide) rfl (by decide) (by decide) (by decide) (by decide)).2.1⟩

end OpenRemoteAix
